import Mathlib

/-!
# Verification of the graphics-copilot client

Shallow embedding of the repository's pure logic and UI state machines:
the backend API helpers (`src/services/api.js`), the Google Slides/Drive
client (`src/services/googleSlides.js`), the template/layout compositor
(`src/components/TemplateSelector.jsx`), the chat sidebar send handler
(`src/components/AISidebar.jsx`) and the top-level app state container
(`src/App.jsx`).

JavaScript strings are modelled as `String`/`List Char`, machine numbers as
`Int`/`Nat`, nullable values as `Option`, thrown errors as `Except String`,
and browser local storage as an association list from keys to stored values.
Network responses are explicit parameters (one per awaited `fetch`).
-/

set_option maxHeartbeats 1000000

namespace GraphicsCopilot

/-! ## Generic list/string helpers (JS `String.prototype` behaviour) -/

/-- Boolean test that `p` is a leading segment of `s` (explicit recursion so
all lemmas about it are proved here, independent of library naming). -/
def hasPfx : List Char → List Char → Bool
  | [], _ => true
  | _ :: _, [] => false
  | a :: p, b :: s => a == b && hasPfx p s

theorem hasPfx_iff (p s : List Char) : hasPfx p s = true ↔ ∃ t, s = p ++ t := by
  induction p generalizing s with
  | nil => simp [hasPfx]
  | cons a p ih =>
    cases s with
    | nil => simp [hasPfx]
    | cons b s =>
      simp only [hasPfx, Bool.and_eq_true, beq_iff_eq, ih]
      constructor
      · rintro ⟨rfl, t, rfl⟩
        exact ⟨t, rfl⟩
      · rintro ⟨t, h⟩
        cases h
        exact ⟨rfl, t, rfl⟩

theorem hasPfx_append (p t : List Char) : hasPfx p (p ++ t) = true :=
  (hasPfx_iff p (p ++ t)).mpr ⟨t, rfl⟩

/-- JS `s.includes(pat)` on character lists. -/
def containsSub (s pat : List Char) : Bool :=
  match s with
  | [] => hasPfx pat []
  | _ :: t => hasPfx pat s || containsSub t pat

theorem containsSub_iff (s pat : List Char) :
    containsSub s pat = true ↔ ∃ a b, s = a ++ pat ++ b := by
  induction s with
  | nil =>
    simp only [containsSub, hasPfx_iff]
    constructor
    · rintro ⟨t, h⟩
      exact ⟨[], t, by simpa using h⟩
    · rintro ⟨a, b, h⟩
      refine ⟨b, ?_⟩
      have ha : a = [] := by
        cases a with
        | nil => rfl
        | cons x xs => simp at h
      subst ha
      simpa using h
  | cons c t ih =>
    simp only [containsSub, Bool.or_eq_true, hasPfx_iff, ih]
    constructor
    · rintro (⟨u, h⟩ | ⟨a, b, h⟩)
      · exact ⟨[], u, by simpa using h⟩
      · exact ⟨c :: a, b, by simp [h]⟩
    · rintro ⟨a, b, h⟩
      cases a with
      | nil => exact Or.inl ⟨b, by simpa using h⟩
      | cons x xs =>
        right
        refine ⟨xs, b, ?_⟩
        have := h
        simp only [List.cons_append] at this
        cases this
        rfl

/-- JS `parseInt(s, 10)`: skip leading whitespace, optional sign, then the
leading run of decimal digits; `none` models `NaN`. -/
def digitsToNat (l : List Char) : Nat :=
  l.foldl (fun acc c => acc * 10 + (c.toNat - '0'.toNat)) 0

def leadingNat (l : List Char) : Option Nat :=
  match l.takeWhile (fun c => c.isDigit) with
  | [] => none
  | ds => some (digitsToNat ds)

def parseIntJS (s : String) : Option Int :=
  match s.data.dropWhile (fun c => c.isWhitespace) with
  | '-' :: rest => (leadingNat rest).map (fun n => -(n : Int))
  | '+' :: rest => (leadingNat rest).map (fun n => (n : Int))
  | l => (leadingNat l).map (fun n => (n : Int))

/-! ## `src/services/api.js`: session identity helpers

`localStorage` restricted to the string-valued keys used by the API module. -/

abbrev SessionStore := List (String × String)

def sget (st : SessionStore) (k : String) : Option String :=
  (st.find? (fun p => p.1 == k)).map (fun p => p.2)

def sset (st : SessionStore) (k v : String) : SessionStore :=
  (k, v) :: st.filter (fun p => p.1 != k)

theorem sget_sset (st : SessionStore) (k v : String) : sget (sset st k v) k = some v := by
  simp [sget, sset, List.find?]

/-- `generateSessionId`: "session_" + Date.now() + "_" + random suffix; the two
nondeterministic sources are explicit arguments. -/
def generateSessionId (now rand : String) : String :=
  "session_" ++ now ++ "_" ++ rand

/-- `getOrCreateSessionId()`: return the stored id if truthy, else create,
persist and return a fresh one.  (JS `!sessionId` is true for both a missing
key and the empty string.) -/
def getOrCreateSessionId (st : SessionStore) (now rand : String) : String × SessionStore :=
  match sget st "chatSessionId" with
  | some s =>
    if s = "" then
      (generateSessionId now rand, sset st "chatSessionId" (generateSessionId now rand))
    else (s, st)
  | none =>
    (generateSessionId now rand, sset st "chatSessionId" (generateSessionId now rand))

/-- `resetSession()`: unconditionally create, persist and return a new id. -/
def resetSession (st : SessionStore) (now rand : String) : String × SessionStore :=
  (generateSessionId now rand, sset st "chatSessionId" (generateSessionId now rand))

/-! ## `src/services/api.js`: chart filename extraction

`extractChartFilename` runs the regex `/chart_[^\x2f]+(?=\.png)/` against the
URL and returns the matched text.  The JS regex engine finds the leftmost
starting position admitting a match; there, the greedy `[^\x2f]+` with the
lookahead keeps the longest slash-free run followed by ".png". -/

def chartPfx : List Char := ['c', 'h', 'a', 'r', 't', '_']

def pngExt : List Char := ['.', 'p', 'n', 'g']

def noSlash (l : List Char) : Bool := l.all (fun c => c != '/')

/-- `k` characters of `rest` are a viable body for `[^\x2f]+(?=\.png)`:
nonempty, slash-free, and followed immediately by ".png". -/
def validK (rest : List Char) (k : Nat) : Bool :=
  decide (1 ≤ k) && noSlash (rest.take k) && hasPfx pngExt (rest.drop k)

/-- Greedy choice: the largest viable length, if any. -/
def greedyK (rest : List Char) : Option Nat :=
  (List.range (rest.length + 1)).reverse.find? (fun k => validK rest k)

/-- Try to match the whole regex at the start of `s`. -/
def matchChartAt (s : List Char) : Option (List Char) :=
  if hasPfx chartPfx s then
    match greedyK (s.drop 6) with
    | some k => some (chartPfx ++ (s.drop 6).take k)
    | none => none
  else none

/-- Leftmost match of the regex anywhere in `s`. -/
def findChartMatch : List Char → Option (List Char)
  | [] => none
  | c :: rest =>
    match matchChartAt (c :: rest) with
    | some m => some m
    | none => findChartMatch rest

/-- `extractChartFilename(imageUrl)`: `null` on falsy input (null / empty
string), else the regex match or `null`. -/
def extractChartFilename (imageUrl : Option String) : Option String :=
  match imageUrl with
  | none => none
  | some u => if u = "" then none else (findChartMatch u.data).map List.asString

example : extractChartFilename (some "http://h/static/charts/chart_123.png") =
    some "chart_123" := by decide

example : extractChartFilename (some "chart_a.png.png") = some "chart_a.png" := by decide

example : extractChartFilename (some "chart_1") = none := by decide

example : extractChartFilename (some "") = none := by decide

/-! ### Correctness lemmas for the regex machinery -/

theorem validK_sound (rest : List Char) (k : Nat) (h : validK rest k = true) :
    ∃ t b, rest = t ++ pngExt ++ b ∧ t ≠ [] ∧ noSlash t = true ∧ t.length = k := by
  simp only [validK, Bool.and_eq_true, decide_eq_true_eq] at h
  obtain ⟨⟨hk, hslash⟩, hpng⟩ := h
  obtain ⟨b, hb⟩ := (hasPfx_iff _ _).mp hpng
  have hlen : k < rest.length := by
    have h1 : (rest.drop k).length = rest.length - k := List.length_drop k rest
    rw [hb] at h1
    simp only [List.length_append] at h1
    have : pngExt.length = 4 := by decide
    omega
  refine ⟨rest.take k, b, ?_, ?_, hslash, ?_⟩
  · calc rest = rest.take k ++ rest.drop k := (List.take_append_drop k rest).symm
    _ = rest.take k ++ (pngExt ++ b) := by rw [hb]
    _ = rest.take k ++ pngExt ++ b := by rw [List.append_assoc]
  · intro hnil
    have := congrArg List.length hnil
    simp only [List.length_take, List.length_nil] at this
    omega
  · simp only [List.length_take]
    omega

theorem validK_complete (t b : List Char) (ht : t ≠ []) (hs : noSlash t = true) :
    validK (t ++ pngExt ++ b) t.length = true := by
  have htake : (t ++ pngExt ++ b).take t.length = t := by
    rw [List.append_assoc]
    simp
  have hdrop : (t ++ pngExt ++ b).drop t.length = pngExt ++ b := by
    rw [List.append_assoc]
    simp
  simp only [validK, Bool.and_eq_true, decide_eq_true_eq, htake, hdrop]
  refine ⟨⟨?_, hs⟩, hasPfx_append _ _⟩
  have := List.length_pos.mpr ht
  omega

theorem greedyK_sound (rest : List Char) (k : Nat) (h : greedyK rest = some k) :
    validK rest k = true :=
  List.find?_some h

theorem greedyK_complete (rest : List Char) (k : Nat) (h : validK rest k = true) :
    ∃ k', greedyK rest = some k' := by
  have hk : k < rest.length + 1 := by
    obtain ⟨t, b, hrest, -, -, hlen⟩ := validK_sound rest k h
    have := congrArg List.length hrest
    simp only [List.length_append] at this
    omega
  have hmem : k ∈ (List.range (rest.length + 1)).reverse := by
    rw [List.mem_reverse, List.mem_range]
    exact hk
  have : ((List.range (rest.length + 1)).reverse.find? (fun k => validK rest k)).isSome := by
    rw [List.find?_isSome]
    exact ⟨k, hmem, h⟩
  obtain ⟨k', hk'⟩ := Option.isSome_iff_exists.mp this
  exact ⟨k', hk'⟩

theorem matchChartAt_sound (s m : List Char) (h : matchChartAt s = some m) :
    ∃ t b, s = chartPfx ++ t ++ pngExt ++ b ∧ t ≠ [] ∧ noSlash t = true ∧
      m = chartPfx ++ t := by
  unfold matchChartAt at h
  by_cases hpfx : hasPfx chartPfx s = true
  · rw [if_pos hpfx] at h
    obtain ⟨u, hu⟩ := (hasPfx_iff _ _).mp hpfx
    have hdrop : s.drop 6 = u := by
      rw [hu]
      have : chartPfx.length = 6 := by decide
      rw [← this]
      simp
    rw [hdrop] at h
    cases hg : greedyK u with
    | none => rw [hg] at h; exact absurd h (by simp)
    | some k =>
      rw [hg] at h
      obtain ⟨t, b, hub, htne, hts, htl⟩ := validK_sound u k (greedyK_sound u k hg)
      have htake : u.take k = t := by
        rw [hub, ← htl, List.append_assoc]
        simp
      refine ⟨t, b, ?_, htne, hts, ?_⟩
      · rw [hu, hub]
        simp [List.append_assoc]
      · simp only [Option.some.injEq] at h
        rw [← h, htake]
  · rw [if_neg hpfx] at h
    exact absurd h (by simp)

theorem matchChartAt_complete (t b : List Char) (ht : t ≠ []) (hs : noSlash t = true) :
    ∃ m, matchChartAt (chartPfx ++ t ++ pngExt ++ b) = some m := by
  have hpfx : hasPfx chartPfx (chartPfx ++ t ++ pngExt ++ b) = true := by
    rw [List.append_assoc, List.append_assoc]
    exact hasPfx_append _ _
  have hdrop : (chartPfx ++ t ++ pngExt ++ b).drop 6 = t ++ pngExt ++ b := by
    rw [List.append_assoc, List.append_assoc]
    have h6 : chartPfx.length = 6 := by decide
    rw [← h6]
    simp [List.append_assoc]
  obtain ⟨k', hk'⟩ := greedyK_complete (t ++ pngExt ++ b) t.length (validK_complete t b ht hs)
  refine ⟨chartPfx ++ (t ++ pngExt ++ b).take k', ?_⟩
  unfold matchChartAt
  rw [if_pos hpfx, hdrop, hk']

theorem findChartMatch_sound (s m : List Char) (h : findChartMatch s = some m) :
    ∃ a u, s = a ++ u ∧ matchChartAt u = some m := by
  induction s with
  | nil => exact absurd h (by simp [findChartMatch])
  | cons c rest ih =>
    rw [findChartMatch] at h
    cases hm : matchChartAt (c :: rest) with
    | some m' =>
      rw [hm] at h
      simp only [Option.some.injEq] at h
      exact ⟨[], c :: rest, rfl, by rw [hm, h]⟩
    | none =>
      rw [hm] at h
      obtain ⟨a, u, hrest, hu⟩ := ih h
      exact ⟨c :: a, u, by rw [hrest]; rfl, hu⟩

theorem findChartMatch_complete (a u m : List Char) (h : matchChartAt u = some m) :
    ∃ m', findChartMatch (a ++ u) = some m' := by
  induction a with
  | nil =>
    cases u with
    | nil => exact absurd h (by simp [matchChartAt, hasPfx, chartPfx])
    | cons c rest =>
      refine ⟨m, ?_⟩
      rw [List.nil_append, findChartMatch, h]
  | cons x a ih =>
    obtain ⟨m', hm'⟩ := ih
    cases hx : matchChartAt (x :: (a ++ u)) with
    | some m2 => exact ⟨m2, by rw [List.cons_append, findChartMatch, hx]⟩
    | none => exact ⟨m', by rw [List.cons_append, findChartMatch, hx, hm']⟩

/-- Spec-side predicate: the character list contains a filename of the form
`chart_<token>.png`, with a nonempty slash-free token. -/
def HasChartName (s : List Char) : Prop :=
  ∃ a t b, s = a ++ chartPfx ++ t ++ pngExt ++ b ∧ t ≠ [] ∧ noSlash t = true

theorem findChartMatch_of_hasChartName (s : List Char) (h : HasChartName s) :
    ∃ m, findChartMatch s = some m := by
  obtain ⟨a, t, b, hs, ht, hsl⟩ := h
  obtain ⟨m, hm⟩ := matchChartAt_complete t b ht hsl
  have : s = a ++ (chartPfx ++ t ++ pngExt ++ b) := by
    rw [hs]
    simp [List.append_assoc]
  rw [this]
  exact findChartMatch_complete a _ m hm

theorem hasChartName_of_findChartMatch (s m : List Char) (h : findChartMatch s = some m) :
    ∃ t, t ≠ [] ∧ noSlash t = true ∧ m = chartPfx ++ t ∧
      ∃ a b, s = a ++ chartPfx ++ t ++ pngExt ++ b := by
  obtain ⟨a, u, hsu, hu⟩ := findChartMatch_sound s m h
  obtain ⟨t, b, hub, ht, hsl, hm⟩ := matchChartAt_sound u m hu
  exact ⟨t, ht, hsl, hm, a, b, by rw [hsu, hub]; simp [List.append_assoc]⟩

/-- C7: for every URL containing a filename of the form `chart_<token>.png`
(token nonempty and slash-free), the extractor returns `chart_<token>` for such
a token (the filename without the `.png` extension); for every URL containing
no such filename, and for null/empty input, it returns null. -/
theorem c7_extractChartFilename_correct (u : String) :
    (HasChartName u.data →
      ∃ t, t ≠ [] ∧ noSlash t = true ∧
        (∃ a b, u.data = a ++ chartPfx ++ t ++ pngExt ++ b) ∧
        extractChartFilename (some u) = some (chartPfx ++ t).asString) ∧
    (¬ HasChartName u.data → extractChartFilename (some u) = none) ∧
    extractChartFilename none = none := by
  refine ⟨?_, ?_, rfl⟩
  · intro h
    obtain ⟨m, hm⟩ := findChartMatch_of_hasChartName u.data h
    obtain ⟨t, ht, hsl, hmt, a, b, hdec⟩ := hasChartName_of_findChartMatch u.data m hm
    have hne : u ≠ "" := by
      intro he
      subst he
      have : findChartMatch (("" : String).data) = none := by decide
      rw [this] at hm
      exact absurd hm (by simp)
    refine ⟨t, ht, hsl, ⟨a, b, hdec⟩, ?_⟩
    simp only [extractChartFilename, if_neg hne, hm]
    rw [hmt]
    rfl
  · intro h
    by_cases he : u = ""
    · simp [extractChartFilename, he]
    · simp only [extractChartFilename, if_neg he]
      cases hfm : findChartMatch u.data with
      | none => simp
      | some m =>
        obtain ⟨t, ht, hsl, -, a, b, hdec⟩ := hasChartName_of_findChartMatch u.data m hfm
        exact absurd ⟨a, t, b, hdec, ht, hsl⟩ h

theorem c7_extractChartFilename_correct_witness :
    HasChartName ("a/chart_9.png".data) ∧
    (∃ t, t ≠ [] ∧ noSlash t = true ∧
      (∃ a b, ("a/chart_9.png".data) = a ++ chartPfx ++ t ++ pngExt ++ b) ∧
      extractChartFilename (some "a/chart_9.png") = some (chartPfx ++ t).asString) ∧
    ¬ HasChartName ("xy.png".data) ∧
    extractChartFilename (some "xy.png") = none := by
  have hpos : HasChartName ("a/chart_9.png".data) :=
    ⟨['a', '/'], ['9'], [], by decide, by decide, by decide⟩
  have hneg : ¬ HasChartName ("xy.png".data) := by
    rintro ⟨a, t, b, hdec, ht, -⟩
    have hlen := congrArg List.length hdec
    have h1 : 0 < t.length := List.length_pos.mpr ht
    simp [chartPfx, pngExt] at hlen
    omega
  exact ⟨hpos, (c7_extractChartFilename_correct "a/chart_9.png").1 hpos,
    hneg, (c7_extractChartFilename_correct "xy.png").2.1 hneg⟩

/-- C8 counterexample: extraction strips the `.png` extension, so applying the
extractor to its own non-null result does not reproduce that result: on
"chart_1.png" the first application yields "chart_1", and a second application
yields null. -/
theorem c8_idempotence_counterexample :
    extractChartFilename (some "chart_1.png") = some "chart_1" ∧
    extractChartFilename (some "chart_1") = none := by decide

/-- C8 amended: the extractor is idempotent on inputs with a null result
(null propagates); on a non-null result the second application instead
extracts from the stripped name, which is null whenever that name contains no
further ".png" occurrence. -/
theorem c8_idempotence_amended (s : Option String) (r : String) :
    (extractChartFilename s = none →
      extractChartFilename (extractChartFilename s) = extractChartFilename s) ∧
    (extractChartFilename s = some r → containsSub r.data pngExt = false →
      extractChartFilename (some r) = none) := by
  constructor
  · intro h
    rw [h]
    rfl
  · intro _ hc
    by_cases he : r = ""
    · simp [extractChartFilename, he]
    · simp only [extractChartFilename, if_neg he]
      cases hfm : findChartMatch r.data with
      | none => simp
      | some m =>
        obtain ⟨t, -, -, -, a, b, hdec⟩ := hasChartName_of_findChartMatch r.data m hfm
        have : containsSub r.data pngExt = true := by
          rw [containsSub_iff]
          exact ⟨a ++ chartPfx ++ t, b, by rw [hdec]⟩
        simp [this] at hc

theorem c8_idempotence_amended_witness :
    extractChartFilename (some "q/chart_7.png") = some "chart_7" ∧
    containsSub ("chart_7".data) pngExt = false ∧
    extractChartFilename (some "chart_7") = none :=
  ⟨by decide, by decide,
    (c8_idempotence_amended (some "q/chart_7.png") "chart_7").2 (by decide) (by decide)⟩

/-! ### Session identity (C9) -/

theorem generateSessionId_ne_empty (t r : String) : generateSessionId t r ≠ "" := by
  intro h
  have hd := congrArg String.data h
  simp only [generateSessionId, String.data_append] at hd
  simp at hd

theorem underscore_split_unique (x : List Char) : ∀ (u y v : List Char),
    '_' ∉ x → '_' ∉ y → x ++ '_' :: u = y ++ '_' :: v → x = y ∧ u = v := by
  induction x with
  | nil =>
    intro u y v _ hy h
    cases y with
    | nil => simpa using h
    | cons c ys =>
      simp only [List.nil_append, List.cons_append, List.cons.injEq] at h
      exact absurd (h.1 ▸ List.mem_cons_self c ys) hy
  | cons a xs ih =>
    intro u y v hx hy h
    cases y with
    | nil =>
      simp only [List.cons_append, List.nil_append, List.cons.injEq] at h
      exact absurd (h.1 ▸ List.mem_cons_self a xs) hx
    | cons c ys =>
      simp only [List.cons_append, List.cons.injEq] at h
      obtain ⟨rfl, h2⟩ := h
      have hx' : '_' ∉ xs := fun hm => hx (List.mem_cons_of_mem _ hm)
      have hy' : '_' ∉ ys := fun hm => hy (List.mem_cons_of_mem _ hm)
      obtain ⟨rfl, rfl⟩ := ih u ys v hx' hy' h2
      exact ⟨rfl, rfl⟩

theorem generateSessionId_inj (t0 r0 t2 r2 : String)
    (ht0 : '_' ∉ t0.data) (ht2 : '_' ∉ t2.data)
    (h : generateSessionId t0 r0 = generateSessionId t2 r2) : t0 = t2 ∧ r0 = r2 := by
  have hd := congrArg String.data h
  simp only [generateSessionId, String.data_append] at hd
  rw [List.append_assoc, List.append_assoc] at hd
  have hd2 := List.append_cancel_left hd
  obtain ⟨he1, he2⟩ := underscore_split_unique t0.data r0.data t2.data r2.data ht0 ht2 (by
    simpa using hd2)
  exact ⟨String.ext he1, String.ext he2⟩

/-- C9 counterexample: when the timestamp and random suffix collide with the
ones that produced the stored id, `resetSession` returns an identifier equal to
the immediately preceding session id. -/
theorem c9_reset_counterexample :
    sget [("chatSessionId", "session_5_abc")] "chatSessionId" = some "session_5_abc" ∧
    (resetSession [("chatSessionId", "session_5_abc")] "5" "abc").1 = "session_5_abc" := by
  decide

/-- C9 amended: two calls of `getOrCreateSessionId` with no intervening reset
return the same identifier (and it is persisted); `resetSession` always
creates, persists and returns `session_<now>_<rand>`, which differs from the
immediately preceding session id unless that id was built from the same
timestamp/random pair (components being underscore-free, as decimal and
base-36 digits are). -/
theorem c9_session_amended (st : SessionStore) (t1 r1 t2 r2 : String) :
    (getOrCreateSessionId (getOrCreateSessionId st t1 r1).2 t2 r2).1 =
      (getOrCreateSessionId st t1 r1).1 ∧
    sget (getOrCreateSessionId st t1 r1).2 "chatSessionId" =
      some (getOrCreateSessionId st t1 r1).1 ∧
    (resetSession st t2 r2).1 = generateSessionId t2 r2 ∧
    sget (resetSession st t2 r2).2 "chatSessionId" = some (generateSessionId t2 r2) ∧
    (∀ prev t0 r0, sget st "chatSessionId" = some prev →
      prev = generateSessionId t0 r0 →
      '_' ∉ t0.data → '_' ∉ r0.data → '_' ∉ t2.data → '_' ∉ r2.data →
      ¬ (t0 = t2 ∧ r0 = r2) → (resetSession st t2 r2).1 ≠ prev) := by
  refine ⟨?_, ?_, rfl, sget_sset st "chatSessionId" _, ?_⟩
  · cases hv : sget st "chatSessionId" with
    | none =>
      simp only [getOrCreateSessionId, hv, sget_sset,
        if_neg (generateSessionId_ne_empty t1 r1)]
    | some v =>
      by_cases hve : v = ""
      · simp only [getOrCreateSessionId, hv, if_pos hve, sget_sset,
          if_neg (generateSessionId_ne_empty t1 r1)]
      · simp only [getOrCreateSessionId, hv, if_neg hve]
  · cases hv : sget st "chatSessionId" with
    | none =>
      simp only [getOrCreateSessionId, hv, sget_sset]
    | some v =>
      by_cases hve : v = ""
      · simp only [getOrCreateSessionId, hv, if_pos hve, sget_sset]
      · simp only [getOrCreateSessionId, hv, if_neg hve, hv]
  · intro prev t0 r0 _ hprev ht0 _hr0 ht2 _hr2 hne heq
    simp only [resetSession] at heq
    rw [hprev] at heq
    obtain ⟨h1, h2⟩ := generateSessionId_inj t2 r2 t0 r0 ht2 ht0 heq
    exact hne ⟨h1.symm, h2.symm⟩

theorem c9_session_amended_witness :
    (getOrCreateSessionId (getOrCreateSessionId [] "1" "aa").2 "2" "bb").1 =
      (getOrCreateSessionId [] "1" "aa").1 ∧
    sget [("chatSessionId", "session_1_aa")] "chatSessionId" = some "session_1_aa" ∧
    ("session_1_aa" : String) = generateSessionId "1" "aa" ∧
    ¬ ("1" = "2" ∧ "aa" = "bb") ∧
    (resetSession [("chatSessionId", "session_1_aa")] "2" "bb").1 ≠ "session_1_aa" := by
  refine ⟨(c9_session_amended [] "1" "aa" "2" "bb").1, by decide, by decide, by decide, ?_⟩
  exact (c9_session_amended [("chatSessionId", "session_1_aa")] "1" "aa" "2" "bb").2.2.2.2
    "session_1_aa" "1" "aa" (by decide) (by decide) (by decide) (by decide)
    (by decide) (by decide) (by decide)

/-! ## Chart data model (shared by App.jsx, AISidebar.jsx, TemplateSelector.jsx) -/

structure ChartMetadata where
  chart_type : Option String
  x_column : Option String
  y_column : Option String
  title : Option String
deriving DecidableEq, Repr

structure GenChart where
  id : Int
  type : String
  imageUrl : String
  metadata : Option ChartMetadata
deriving DecidableEq, Repr

/-! ## `src/components/TemplateSelector.jsx`: template/layout compositor -/

structure Variation where
  layout : String
  label : String
deriving DecidableEq, Repr

structure Template where
  name : String
  slots : Nat
  variations : List Variation
deriving DecidableEq, Repr

inductive TemplateKey
  | full
  | half
  | sideBySide
  | grid
deriving DecidableEq, Repr

/-- The `TEMPLATES` table. -/
def TEMPLATES : TemplateKey → Template
  | .full => ⟨"Full", 1, [⟨"full", "Full"⟩]⟩
  | .half => ⟨"Half", 1,
      [⟨"half-top", "Top"⟩, ⟨"half-bottom", "Bottom"⟩,
       ⟨"half-left", "Left"⟩, ⟨"half-right", "Right"⟩]⟩
  | .sideBySide => ⟨"Split", 2,
      [⟨"split-horizontal", "Left/Right"⟩, ⟨"split-vertical", "Top/Bottom"⟩]⟩
  | .grid => ⟨"2×2 Grid", 4, [⟨"grid", "Grid"⟩]⟩

/-- Component state.  `slotCharts` models the JS object `{[slotIndex]: chart}`:
an entry can be present with value `none` (the JS value `undefined`, as
produced by a failed `find`), and presence is what `Object.keys` counts. -/
structure TSState where
  selectedTemplate : Option TemplateKey
  variationIndex : Nat
  slotCharts : List (Nat × Option GenChart)
deriving DecidableEq, Repr

def tsInit : TSState := ⟨none, 0, []⟩

/-- JS spread update `({...prev, [k]: v})`: replace the binding if the key is
present, otherwise append it. -/
def objSet (m : List (Nat × Option GenChart)) (k : Nat) (v : Option GenChart) :
    List (Nat × Option GenChart) :=
  if m.any (fun p => p.1 == k) then
    m.map (fun p => if p.1 == k then (k, v) else p)
  else m ++ [(k, v)]

/-- JS property read `m[k]`: `none` when the key is absent. -/
def objGet (m : List (Nat × Option GenChart)) (k : Nat) : Option (Option GenChart) :=
  (m.find? (fun p => p.1 == k)).map (fun p => p.2)

/-- `handleTemplateSelect`. -/
def handleTemplateSelect (st : TSState) (k : TemplateKey) : TSState :=
  if st.selectedTemplate = some k then
    { st with variationIndex := (st.variationIndex + 1) % (TEMPLATES k).variations.length }
  else ⟨some k, 0, []⟩

/-- `handleClearTemplate`. -/
def handleClearTemplate (_st : TSState) : TSState := tsInit

/-- The parent `handleDrop(slotIndex, chartId)`: stores
`generatedCharts.find((c) => c.id === chartId)` under the slot key, even when
`find` yields `undefined`. -/
def handleDrop (charts : List GenChart) (st : TSState) (slotIndex : Nat) (chartId : Int) :
    TSState :=
  { st with slotCharts :=
      objSet st.slotCharts slotIndex (charts.find? (fun c => c.id == chartId)) }

/-- `TemplateSlot.handleDrop`: read the `"chartId"` payload, `parseInt` it and
forward only truthy ids (`NaN` and `0` are dropped). -/
def slotDropEvent (charts : List GenChart) (st : TSState) (slotIndex : Nat)
    (payload : String) : TSState :=
  match parseIntJS payload with
  | some n => if n ≠ 0 then handleDrop charts st slotIndex n else st
  | none => st

/-- `filledSlots = Object.keys(slotCharts).length`. -/
def filledSlots (st : TSState) : Nat := st.slotCharts.length

/-- `canSave = template && filledSlots === template.slots`. -/
def canSave (st : TSState) : Bool :=
  match st.selectedTemplate with
  | some k => filledSlots st == (TEMPLATES k).slots
  | none => false

/-- `currentVariation = template ? template.variations[variationIndex] : null`. -/
def currentVariation (st : TSState) : Option Variation :=
  match st.selectedTemplate with
  | some k => (TEMPLATES k).variations[st.variationIndex]?
  | none => none

/-- Clicking Save: the button carries `disabled={!canSave}`, and the handler
returns early unless `currentVariation` is set; on success it emits
`onSaveTemplate(slotCharts, currentVariation.layout)` and clears. -/
def saveClick (st : TSState) : TSState × Option (List (Nat × Option GenChart) × String) :=
  if canSave st then
    match currentVariation st with
    | some v => (tsInit, some (st.slotCharts, v.layout))
    | none => (st, none)
  else (st, none)

/-- A slot renders as filled iff its entry holds an actual chart
(`chart ? "filled" : placeholder`). -/
def slotRendersFilled (st : TSState) (i : Nat) : Bool :=
  match objGet st.slotCharts i with
  | some (some _) => true
  | _ => false

/-! ### Association-object lemmas -/

theorem find_map_set (m : List (Nat × Option GenChart)) (k : Nat) (v : Option GenChart)
    (h : m.any (fun p => p.1 == k) = true) :
    (m.map (fun p => if p.1 == k then (k, v) else p)).find? (fun p => p.1 == k) =
      some (k, v) := by
  induction m with
  | nil => simp at h
  | cons p t ih =>
    by_cases hp : p.1 = k
    · simp [List.find?, hp]
    · have hp' : (p.1 == k) = false := by simp [hp]
      simp only [List.any_cons, hp', Bool.false_or] at h
      simp only [List.map_cons, hp', if_neg hp]
      rw [List.find?_cons_of_neg _ (by simp [hp])]
      exact ih h

theorem find_append_new (m : List (Nat × Option GenChart)) (k : Nat) (v : Option GenChart)
    (h : m.any (fun p => p.1 == k) = false) :
    (m ++ [(k, v)]).find? (fun p => p.1 == k) = some (k, v) := by
  induction m with
  | nil => simp [List.find?]
  | cons p t ih =>
    simp only [List.any_cons, Bool.or_eq_false_iff] at h
    simp only [List.cons_append]
    rw [List.find?_cons_of_neg _ (by simp [h.1])]
    exact ih h.2

theorem objGet_objSet (m : List (Nat × Option GenChart)) (k : Nat) (v : Option GenChart) :
    objGet (objSet m k v) k = some v := by
  unfold objGet objSet
  by_cases h : m.any (fun p => p.1 == k) = true
  · rw [if_pos h, find_map_set m k v h]
    rfl
  · rw [if_neg h, find_append_new m k v (Bool.eq_false_iff.mpr h)]
    rfl

theorem length_objSet_new (m : List (Nat × Option GenChart)) (k : Nat) (v : Option GenChart)
    (h : objGet m k = none) : (objSet m k v).length = m.length + 1 := by
  have hany : m.any (fun p => p.1 == k) = false := by
    unfold objGet at h
    cases hf : m.find? (fun p => p.1 == k) with
    | none =>
      rw [List.find?_eq_none] at hf
      simp only [List.any_eq_false]
      intro p hp
      simpa using hf p hp
    | some p => rw [hf] at h; exact absurd h (by simp)
  simp [objSet, hany]

/-! ### C1: dropping an unresolvable chart identifier -/

def c1Chart : GenChart := ⟨1, "bar", "http://h/static/charts/chart_1.png", none⟩

def c1State : TSState := ⟨some TemplateKey.full, 0, []⟩

/-- C1 counterexample: with one generated chart of id 1, dropping payload "2"
on slot 0 resolves to no chart, yet the slot-assignment mapping changes (an
entry with an empty value appears) and the filled-slot count that gates saving
rises from 0 to 1. -/
theorem c1_unresolved_drop_counterexample :
    (∀ c ∈ [c1Chart], c.id ≠ 2) ∧
    slotDropEvent [c1Chart] c1State 0 "2" ≠ c1State ∧
    filledSlots c1State = 0 ∧
    filledSlots (slotDropEvent [c1Chart] c1State 0 "2") = 1 ∧
    canSave (slotDropEvent [c1Chart] c1State 0 "2") = true := by decide

/-- C1 amended: a drop whose payload does not parse to a truthy integer is
ignored entirely.  A payload that parses but resolves to no generated chart is
not ignored: the target slot still renders as unfilled, but the mapping gains
an entry with an empty value, so the filled-slot count used to gate saving
increases whenever that slot was previously unassigned. -/
theorem c1_unresolved_drop_amended (charts : List GenChart) (st : TSState)
    (slot : Nat) (payload : String) (n : Int)
    (hp : parseIntJS payload = some n) (hn : n ≠ 0)
    (hres : charts.find? (fun c => c.id == n) = none) :
    (slotDropEvent charts st slot payload).slotCharts = objSet st.slotCharts slot none ∧
    slotRendersFilled (slotDropEvent charts st slot payload) slot = false ∧
    (objGet st.slotCharts slot = none →
      filledSlots (slotDropEvent charts st slot payload) = filledSlots st + 1) ∧
    (∀ payload2, parseIntJS payload2 = none → slotDropEvent charts st slot payload2 = st) ∧
    (∀ payload2, parseIntJS payload2 = some 0 → slotDropEvent charts st slot payload2 = st) := by
  have hmain : (slotDropEvent charts st slot payload).slotCharts =
      objSet st.slotCharts slot none := by
    simp [slotDropEvent, hp, hn, handleDrop, hres]
  refine ⟨hmain, ?_, ?_, ?_, ?_⟩
  · unfold slotRendersFilled
    rw [hmain, objGet_objSet]
  · intro habs
    unfold filledSlots
    rw [hmain, length_objSet_new st.slotCharts slot none habs]
  · intro payload2 h2
    simp [slotDropEvent, h2]
  · intro payload2 h2
    simp [slotDropEvent, h2]

theorem c1_unresolved_drop_amended_witness :
    parseIntJS "2" = some 2 ∧ (2 : Int) ≠ 0 ∧
    [c1Chart].find? (fun c => c.id == 2) = none ∧
    objGet c1State.slotCharts 0 = none ∧
    ((slotDropEvent [c1Chart] c1State 0 "2").slotCharts = objSet c1State.slotCharts 0 none ∧
     slotRendersFilled (slotDropEvent [c1Chart] c1State 0 "2") 0 = false ∧
     (objGet c1State.slotCharts 0 = none →
       filledSlots (slotDropEvent [c1Chart] c1State 0 "2") = filledSlots c1State + 1) ∧
     (∀ payload2, parseIntJS payload2 = none →
       slotDropEvent [c1Chart] c1State 0 payload2 = c1State) ∧
     (∀ payload2, parseIntJS payload2 = some 0 →
       slotDropEvent [c1Chart] c1State 0 payload2 = c1State)) :=
  ⟨by decide, by decide, by decide, by decide,
    c1_unresolved_drop_amended [c1Chart] c1State 0 "2" 2 (by decide) (by decide) (by decide)⟩

/-! ### C4: save gating -/

/-- C4: saving is permitted (button enabled) exactly when a layout is selected
and the filled-slot count equals that layout's slot count; with a different
count (or no layout) a save click is a no-op emitting nothing; with the exact
count (and an in-range variation) the click emits the save request. -/
theorem c4_save_gating (st : TSState) (k : TemplateKey) :
    (canSave st = true ↔
      ∃ k2, st.selectedTemplate = some k2 ∧ filledSlots st = (TEMPLATES k2).slots) ∧
    (st.selectedTemplate = some k → filledSlots st ≠ (TEMPLATES k).slots →
      saveClick st = (st, none)) ∧
    (st.selectedTemplate = none → saveClick st = (st, none)) ∧
    (st.selectedTemplate = some k → filledSlots st = (TEMPLATES k).slots →
      st.variationIndex < (TEMPLATES k).variations.length →
      ∃ v, currentVariation st = some v ∧
        saveClick st = (tsInit, some (st.slotCharts, v.layout))) := by
  refine ⟨?_, ?_, ?_, ?_⟩
  · unfold canSave
    cases hsel : st.selectedTemplate with
    | none => simp
    | some k2 => simp [beq_iff_eq]
  · intro hsel hne
    have hcs : canSave st = false := by
      unfold canSave
      rw [hsel]
      simpa using hne
    simp [saveClick, hcs]
  · intro hsel
    have hcs : canSave st = false := by
      unfold canSave
      rw [hsel]
    simp [saveClick, hcs]
  · intro hsel heq hlt
    have hcs : canSave st = true := by
      unfold canSave
      rw [hsel]
      simpa using heq
    have hv : currentVariation st = some ((TEMPLATES k).variations[st.variationIndex]) := by
      unfold currentVariation
      rw [hsel]
      exact List.getElem?_eq_getElem hlt
    refine ⟨(TEMPLATES k).variations[st.variationIndex], hv, ?_⟩
    simp [saveClick, hcs, hv]

theorem c4_save_gating_witness :
    ((⟨some TemplateKey.full, 0, [(0, some c1Chart)]⟩ : TSState).selectedTemplate =
      some TemplateKey.full) ∧
    filledSlots ⟨some TemplateKey.full, 0, [(0, some c1Chart)]⟩ =
      (TEMPLATES TemplateKey.full).slots ∧
    (0 : Nat) < (TEMPLATES TemplateKey.full).variations.length ∧
    (∃ v, currentVariation ⟨some TemplateKey.full, 0, [(0, some c1Chart)]⟩ = some v ∧
      saveClick ⟨some TemplateKey.full, 0, [(0, some c1Chart)]⟩ =
        (tsInit, some ([(0, some c1Chart)], v.layout))) ∧
    saveClick ⟨some TemplateKey.grid, 0, [(0, some c1Chart)]⟩ =
      (⟨some TemplateKey.grid, 0, [(0, some c1Chart)]⟩, none) :=
  ⟨rfl, by decide, by decide,
    (c4_save_gating ⟨some TemplateKey.full, 0, [(0, some c1Chart)]⟩ TemplateKey.full).2.2.2
      rfl (by decide) (by decide),
    (c4_save_gating ⟨some TemplateKey.grid, 0, [(0, some c1Chart)]⟩ TemplateKey.grid).2.1
      rfl (by decide)⟩

/-! ### C10: layout selection, variation cycling, clearing -/

/-- C10: re-selecting the selected layout advances the variation index
modulo the layout's variation count and leaves the slot assignments (and the
selection) unchanged; selecting a different layout installs it with variation
index 0 and no slot assignments; clearing resets to the initial state. -/
theorem c10_variation_cycling (st : TSState) (k : TemplateKey) :
    (st.selectedTemplate = some k →
      (handleTemplateSelect st k).selectedTemplate = some k ∧
      (handleTemplateSelect st k).variationIndex =
        (st.variationIndex + 1) % (TEMPLATES k).variations.length ∧
      (handleTemplateSelect st k).slotCharts = st.slotCharts) ∧
    (st.selectedTemplate ≠ some k →
      handleTemplateSelect st k = ⟨some k, 0, []⟩) ∧
    handleClearTemplate st = ⟨none, 0, []⟩ := by
  refine ⟨?_, ?_, rfl⟩
  · intro hsel
    simp [handleTemplateSelect, hsel]
  · intro hsel
    simp [handleTemplateSelect, hsel]

theorem c10_variation_cycling_witness :
    ((⟨some TemplateKey.half, 3, [(0, some c1Chart)]⟩ : TSState).selectedTemplate =
      some TemplateKey.half) ∧
    ((handleTemplateSelect ⟨some TemplateKey.half, 3, [(0, some c1Chart)]⟩
        TemplateKey.half).selectedTemplate = some TemplateKey.half ∧
     (handleTemplateSelect ⟨some TemplateKey.half, 3, [(0, some c1Chart)]⟩
        TemplateKey.half).variationIndex =
       (3 + 1) % (TEMPLATES TemplateKey.half).variations.length ∧
     (handleTemplateSelect ⟨some TemplateKey.half, 3, [(0, some c1Chart)]⟩
        TemplateKey.half).slotCharts = [(0, some c1Chart)]) ∧
    handleTemplateSelect ⟨some TemplateKey.half, 3, [(0, some c1Chart)]⟩
      TemplateKey.grid = ⟨some TemplateKey.grid, 0, []⟩ :=
  ⟨rfl,
    (c10_variation_cycling ⟨some TemplateKey.half, 3, [(0, some c1Chart)]⟩
      TemplateKey.half).1 rfl,
    (c10_variation_cycling ⟨some TemplateKey.half, 3, [(0, some c1Chart)]⟩
      TemplateKey.grid).2.1 (by decide)⟩

/-! ## Keyed storage lemmas (shared by the storage models) -/

theorem find?_filter_ne {α : Type} (l : List (String × α)) (k k2 : String) (h : k2 ≠ k) :
    (l.filter (fun p => p.1 != k)).find? (fun p => p.1 == k2) =
      l.find? (fun p => p.1 == k2) := by
  induction l with
  | nil => rfl
  | cons p t ih =>
    by_cases hp : p.1 = k
    · have hfilter : (p :: t).filter (fun q => q.1 != k) = t.filter (fun q => q.1 != k) := by
        simp [List.filter_cons, hp]
      have hfind : (p :: t).find? (fun q => q.1 == k2) = t.find? (fun q => q.1 == k2) := by
        refine List.find?_cons_of_neg _ ?_
        simp only [hp, beq_iff_eq]
        exact fun he => h he.symm
      rw [hfilter, hfind]
      exact ih
    · have hfilter : (p :: t).filter (fun q => q.1 != k) =
          p :: t.filter (fun q => q.1 != k) := by
        simp [List.filter_cons, hp]
      rw [hfilter]
      by_cases hb : p.1 = k2
      · rw [List.find?_cons_of_pos _ (by simp [hb]), List.find?_cons_of_pos _ (by simp [hb])]
      · rw [List.find?_cons_of_neg _ (by simp [hb]), List.find?_cons_of_neg _ (by simp [hb])]
        exact ih

/-! ## `src/App.jsx`: top-level state container -/

/-- The active dataset, treated opaquely by App.jsx (a parsed CSV table). -/
structure UserData where
  columns : List String
  rows : List (List (String × String))
deriving DecidableEq, Repr

structure SheetSource where
  sheet_id : String
  sheet_gid : String
deriving DecidableEq, Repr

/-- A `localStorage` value, represented by its parse tree: raw-string slices
verbatim, JSON slices by the object whose stringification is stored
(`JSON.stringify` is injective on these shapes, so this is a bijective view of
the reachable storage contents). -/
inductive StoredVal
  | raw (s : String)
  | jsonCharts (cs : List GenChart)
  | jsonBool (b : Bool)
  | jsonData (d : UserData)
  | jsonSheet (src : SheetSource)
deriving DecidableEq, Repr

abbrev AppStorage := List (String × StoredVal)

def aget (st : AppStorage) (k : String) : Option StoredVal :=
  (st.find? (fun p => p.1 == k)).map (fun p => p.2)

def aset (st : AppStorage) (k : String) (v : StoredVal) : AppStorage :=
  (k, v) :: st.filter (fun p => p.1 != k)

def aremove (st : AppStorage) (k : String) : AppStorage :=
  st.filter (fun p => p.1 != k)

theorem aget_aset_same (st : AppStorage) (k : String) (v : StoredVal) :
    aget (aset st k v) k = some v := by
  simp [aget, aset, List.find?]

theorem aget_aset_ne (st : AppStorage) (k k2 : String) (v : StoredVal) (h : k2 ≠ k) :
    aget (aset st k v) k2 = aget st k2 := by
  unfold aget aset
  rw [List.find?_cons_of_neg _ (by simp; exact fun he => h he.symm)]
  rw [find?_filter_ne st k k2 h]

theorem aget_aremove_same (st : AppStorage) (k : String) :
    aget (aremove st k) k = none := by
  unfold aget aremove
  have : (st.filter (fun p => p.1 != k)).find? (fun p => p.1 == k) = none := by
    rw [List.find?_eq_none]
    intro x hx
    have := (List.mem_filter.mp hx).2
    simpa using this
  rw [this]
  rfl

theorem aget_aremove_ne (st : AppStorage) (k k2 : String) (h : k2 ≠ k) :
    aget (aremove st k) k2 = aget st k2 := by
  unfold aget aremove
  rw [find?_filter_ne st k k2 h]

/-- The component's persisted state slices. -/
structure AppState where
  slidesUrl : String
  generatedCharts : List GenChart
  sidebarOpen : Bool
  userData : Option UserData
  chartTheme : String
  activeSheetSource : Option SheetSource
deriving DecidableEq, Repr

/-- The lazy `useState` initializers of `App`: each slice is read from local
storage on first render, with `""`, `[]`, `true`, `null`, `"meli_dark"`,
`null` as the respective defaults.  (JS `saved || default` also maps an empty
stored string to the default; a stored value of an unexpected shape would make
`JSON.parse` throw and is unreachable, read here as the default.) -/
def appInit (st : AppStorage) : AppState :=
  { slidesUrl :=
      match aget st "slidesUrl" with
      | some (.raw s) => s
      | _ => ""
    generatedCharts :=
      match aget st "generatedCharts" with
      | some (.jsonCharts cs) => cs
      | _ => []
    sidebarOpen :=
      match aget st "sidebarOpen" with
      | some (.jsonBool b) => b
      | _ => true
    userData :=
      match aget st "activeUserData" with
      | some (.jsonData d) => some d
      | _ => none
    chartTheme :=
      match aget st "chartTheme" with
      | some (.raw s) => if s = "" then "meli_dark" else s
      | _ => "meli_dark"
    activeSheetSource :=
      match aget st "activeSheetSource" with
      | some (.jsonSheet x) => some x
      | _ => none }

/-- The six persistence `useEffect` bodies of `App`, in source order: the
presentation URL, chart list, sidebar flag and theme are written
unconditionally; the active dataset and sheet-source bindings are written when
present and removed when null. -/
def persistEffects (s : AppState) (st : AppStorage) : AppStorage :=
  let st1 := aset st "slidesUrl" (.raw s.slidesUrl)
  let st2 := aset st1 "generatedCharts" (.jsonCharts s.generatedCharts)
  let st3 := aset st2 "sidebarOpen" (.jsonBool s.sidebarOpen)
  let st4 :=
    match s.userData with
    | some d => aset st3 "activeUserData" (.jsonData d)
    | none => aremove st3 "activeUserData"
  let st5 := aset st4 "chartTheme" (.raw s.chartTheme)
  match s.activeSheetSource with
  | some x => aset st5 "activeSheetSource" (.jsonSheet x)
  | none => aremove st5 "activeSheetSource"

theorem persist_aget (s : AppState) (st : AppStorage) :
    aget (persistEffects s st) "slidesUrl" = some (StoredVal.raw s.slidesUrl) ∧
    aget (persistEffects s st) "generatedCharts" =
      some (StoredVal.jsonCharts s.generatedCharts) ∧
    aget (persistEffects s st) "sidebarOpen" = some (StoredVal.jsonBool s.sidebarOpen) ∧
    aget (persistEffects s st) "chartTheme" = some (StoredVal.raw s.chartTheme) ∧
    aget (persistEffects s st) "activeUserData" = Option.map StoredVal.jsonData s.userData ∧
    aget (persistEffects s st) "activeSheetSource" =
      Option.map StoredVal.jsonSheet s.activeSheetSource := by
  obtain ⟨su, gc, so, ud, ct, ash⟩ := s
  cases ud <;> cases ash <;>
    refine ⟨?_, ?_, ?_, ?_, ?_, ?_⟩ <;>
    simp [persistEffects, aget_aset_same, aget_aset_ne, aget_aremove_same, aget_aremove_ne]

/-- C5 counterexample: persisting a state whose presentation URL is the empty
string stores the empty string under "slidesUrl" instead of removing the key. -/
theorem c5_empty_url_counterexample :
    (⟨"", [], true, none, "meli_dark", none⟩ : AppState).slidesUrl = "" ∧
    aget (persistEffects ⟨"", [], true, none, "meli_dark", none⟩ []) "slidesUrl" =
      some (StoredVal.raw "") ∧
    aget (persistEffects ⟨"", [], true, none, "meli_dark", none⟩ []) "slidesUrl" ≠
      none := by decide

/-- C5 amended: every slice is lazily read at initialization and written
through on every change (persist-then-init recovers the state whenever the
theme is nonempty), but removal on empty/null applies only to the
active-dataset and sheet-source slices; the presentation URL, chart list,
sidebar flag and theme are written unconditionally — in particular an empty
presentation URL is stored as the empty string, not removed. -/
theorem c5_persistence_amended (s : AppState) (st : AppStorage) :
    aget (persistEffects s st) "slidesUrl" = some (StoredVal.raw s.slidesUrl) ∧
    aget (persistEffects s st) "generatedCharts" =
      some (StoredVal.jsonCharts s.generatedCharts) ∧
    aget (persistEffects s st) "sidebarOpen" = some (StoredVal.jsonBool s.sidebarOpen) ∧
    aget (persistEffects s st) "chartTheme" = some (StoredVal.raw s.chartTheme) ∧
    aget (persistEffects s st) "activeUserData" = Option.map StoredVal.jsonData s.userData ∧
    aget (persistEffects s st) "activeSheetSource" =
      Option.map StoredVal.jsonSheet s.activeSheetSource ∧
    (s.chartTheme ≠ "" → appInit (persistEffects s st) = s) := by
  obtain ⟨h1, h2, h3, h4, h5, h6⟩ := persist_aget s st
  refine ⟨h1, h2, h3, h4, h5, h6, ?_⟩
  intro hct
  obtain ⟨su, gc, so, ud, ct, ash⟩ := s
  simp only [appInit, h1, h2, h3, h4, h5, h6]
  cases ud <;> cases ash <;> simp_all

theorem c5_persistence_amended_witness :
    ("meli_dark" : String) ≠ "" ∧
    appInit (persistEffects ⟨"", [c1Chart], false, none, "meli_dark", none⟩ []) =
      ⟨"", [c1Chart], false, none, "meli_dark", none⟩ :=
  ⟨by decide,
    (c5_persistence_amended ⟨"", [c1Chart], false, none, "meli_dark", none⟩
      []).2.2.2.2.2.2 (by decide)⟩

/-! ## Delete-chart flow: `src/services/api.js` `deleteChart` plus
`src/App.jsx` `handleChartDeleted` -/

/-- The parse outcome of a non-success response body: unparseable JSON (the
`.catch` fallback object applies) or a parsed body with an optional `error`
field. -/
inductive ErrBody
  | unparseable
  | parsed (errField : Option String)
deriving DecidableEq, Repr

structure BackendResp where
  ok : Bool
  status : Nat
  body : ErrBody
deriving DecidableEq, Repr

/-- The message thrown by `deleteChart` on a non-success response:
`error.error || "HTTP " + status` after
`response.json().catch(() => ({error: "Unknown error"}))`. -/
def deleteErrorMessage (r : BackendResp) : String :=
  match r.body with
  | .unparseable => "Unknown error"
  | .parsed none => "HTTP " ++ toString r.status
  | .parsed (some m) => if m = "" then "HTTP " ++ toString r.status else m

/-- `deleteChart(filename)`: resolves on success, throws the extracted message
otherwise. -/
def deleteChart (r : BackendResp) : Except String Unit :=
  if r.ok then Except.ok () else Except.error (deleteErrorMessage r)

/-- Observable outcome of `handleChartDeleted`: the resulting chart list,
whether the backend delete was called, and the `alert` message if any. -/
structure DeleteOutcome where
  charts : List GenChart
  backendCalled : Bool
  alertMsg : Option String
deriving DecidableEq, Repr

/-- `handleChartDeleted(chartId)` from `App.jsx`: missing chart is a no-op; an
unresolvable filename removes locally without calling the backend; otherwise
the chart is removed on success or on an error message containing
"not found", and kept (with an alert) on any other error. -/
def handleChartDeleted (charts : List GenChart) (chartId : Int) (resp : BackendResp) :
    DeleteOutcome :=
  match charts.find? (fun c => c.id == chartId) with
  | none => ⟨charts, false, none⟩
  | some chart =>
    match extractChartFilename (some chart.imageUrl) with
    | none => ⟨charts.filter (fun c => c.id != chartId), false, none⟩
    | some _ =>
      match deleteChart resp with
      | .ok _ => ⟨charts.filter (fun c => c.id != chartId), true, none⟩
      | .error msg =>
        if containsSub msg.data ("not found".data) then
          ⟨charts.filter (fun c => c.id != chartId), true, none⟩
        else ⟨charts, true, some ("Failed to delete chart: " ++ msg)⟩

/-- C6: for a chart present in the list, an unresolvable filename means local
removal with no backend call; a backend error whose message contains
"not found" still removes locally with no alert; any other backend error
leaves the list unchanged. -/
theorem c6_delete_chart_flow (charts : List GenChart) (chartId : Int) (resp : BackendResp)
    (chart : GenChart) (hfind : charts.find? (fun c => c.id == chartId) = some chart) :
    (extractChartFilename (some chart.imageUrl) = none →
      handleChartDeleted charts chartId resp =
        ⟨charts.filter (fun c => c.id != chartId), false, none⟩) ∧
    (∀ fn, extractChartFilename (some chart.imageUrl) = some fn →
      resp.ok = false →
      containsSub (deleteErrorMessage resp).data ("not found".data) = true →
      handleChartDeleted charts chartId resp =
        ⟨charts.filter (fun c => c.id != chartId), true, none⟩) ∧
    (∀ fn, extractChartFilename (some chart.imageUrl) = some fn →
      resp.ok = false →
      containsSub (deleteErrorMessage resp).data ("not found".data) = false →
      (handleChartDeleted charts chartId resp).charts = charts ∧
      (handleChartDeleted charts chartId resp).alertMsg =
        some ("Failed to delete chart: " ++ deleteErrorMessage resp)) := by
  refine ⟨?_, ?_, ?_⟩
  · intro hext
    simp [handleChartDeleted, hfind, hext]
  · intro fn hext hok hnf
    simp [handleChartDeleted, hfind, hext, deleteChart, hok, hnf]
  · intro fn hext hok hnf
    simp [handleChartDeleted, hfind, hext, deleteChart, hok, hnf]

def c6LocalChart : GenChart := ⟨3, "template-grid", "data:image/png;base64,xyz", none⟩

def c6RemoteChart : GenChart := ⟨4, "bar", "http://h/static/charts/chart_4.png", none⟩

theorem c6_delete_chart_flow_witness :
    ([c6LocalChart].find? (fun c => c.id == 3) = some c6LocalChart ∧
     extractChartFilename (some c6LocalChart.imageUrl) = none ∧
     handleChartDeleted [c6LocalChart] 3 ⟨true, 200, ErrBody.parsed none⟩ =
       ⟨[], false, none⟩) ∧
    ([c6RemoteChart].find? (fun c => c.id == 4) = some c6RemoteChart ∧
     extractChartFilename (some c6RemoteChart.imageUrl) = some "chart_4" ∧
     containsSub (deleteErrorMessage ⟨false, 404, ErrBody.parsed (some "chart not found")⟩).data
       ("not found".data) = true ∧
     handleChartDeleted [c6RemoteChart] 4 ⟨false, 404, ErrBody.parsed (some "chart not found")⟩ =
       ⟨[], true, none⟩) ∧
    ((handleChartDeleted [c6RemoteChart] 4 ⟨false, 500, ErrBody.parsed (some "boom")⟩).charts =
       [c6RemoteChart] ∧
     (handleChartDeleted [c6RemoteChart] 4
        ⟨false, 500, ErrBody.parsed (some "boom")⟩).alertMsg =
       some ("Failed to delete chart: " ++
         deleteErrorMessage ⟨false, 500, ErrBody.parsed (some "boom")⟩)) :=
  ⟨⟨by decide, by decide,
     (c6_delete_chart_flow [c6LocalChart] 3 ⟨true, 200, ErrBody.parsed none⟩ c6LocalChart
       (by decide)).1 (by decide)⟩,
   ⟨by decide, by decide, by decide,
     (c6_delete_chart_flow [c6RemoteChart] 4 ⟨false, 404, ErrBody.parsed (some "chart not found")⟩
       c6RemoteChart (by decide)).2.1 "chart_4" (by decide) (by decide) (by decide)⟩,
   (c6_delete_chart_flow [c6RemoteChart] 4 ⟨false, 500, ErrBody.parsed (some "boom")⟩
     c6RemoteChart (by decide)).2.2 "chart_4" (by decide) (by decide) (by decide)⟩

/-! ## `src/services/googleSlides.js`: Drive/Slides client

Each awaited `fetch` is one explicit response parameter; bodies are modelled
as parsed JSON carrying the `error.message` field (when present) plus the
payload fields each call reads. -/

/-- `error.error?.message || fallback` (falsy message, absent field and absent
`error` object all fall back). -/
def googleError (fallback : String) (errMessage : Option String) : String :=
  match errMessage with
  | some m => if m = "" then fallback else m
  | none => fallback

structure DriveUploadResp where
  ok : Bool
  errMessage : Option String
  id : String
deriving DecidableEq, Repr

structure PermissionResp where
  ok : Bool
  errMessage : Option String
deriving DecidableEq, Repr

structure GetPresResp where
  ok : Bool
  errMessage : Option String
  slides : List String
deriving DecidableEq, Repr

structure BatchResp where
  ok : Bool
  errMessage : Option String
  objectId : String
deriving DecidableEq, Repr

structure InsertResp where
  ok : Bool
  errMessage : Option String
deriving DecidableEq, Repr

/-- `uploadImageToDrive`: throws on a non-success upload response; the
permission-setting fetch that follows is awaited but its response is
discarded without any status check. -/
def uploadImageToDrive (upload : DriveUploadResp) (perm : PermissionResp) :
    Except String String :=
  if !upload.ok then
    Except.error (googleError "Failed to upload image to Drive" upload.errMessage)
  else
    let _ := perm
    Except.ok upload.id

/-- `getFirstSlideId`: the last slide's objectId, or null for an empty deck. -/
def getFirstSlideId (r : GetPresResp) : Except String (Option String) :=
  if !r.ok then Except.error (googleError "Failed to get presentation" r.errMessage)
  else Except.ok r.slides.getLast?

def createNewSlide (r : BatchResp) : Except String String :=
  if !r.ok then Except.error (googleError "Failed to create slide" r.errMessage)
  else Except.ok r.objectId

def addImageToSlide (r : InsertResp) : Except String Unit :=
  if !r.ok then Except.error (googleError "Failed to add image to slide" r.errMessage)
  else Except.ok ()

/-- `addChartToPresentation`: upload → permission → reuse-last-or-create
(per the `createNewSlideFirst` flag) → insert image; returns the slide id
used and the Drive file id. -/
def addChartToPresentation (createNewSlideFirst : Bool)
    (upload : DriveUploadResp) (perm : PermissionResp) (getPres : GetPresResp)
    (createR : BatchResp) (insertR : InsertResp) :
    Except String (String × String) := do
  let driveFileId ← uploadImageToDrive upload perm
  let slideId ←
    if createNewSlideFirst then createNewSlide createR
    else do
      let lastId ← getFirstSlideId getPres
      match lastId with
      | some sid => pure sid
      | none => createNewSlide createR
  let _ ← addImageToSlide insertR
  pure (slideId, driveFileId)

/-- C2 counterexample: a non-success permission-setting response raises no
error — the insertion sequence still returns success, so "every step raises
on non-success HTTP status" fails at the permission step. -/
theorem c2_permission_counterexample :
    (⟨false, some "The caller does not have permission"⟩ : PermissionResp).ok = false ∧
    addChartToPresentation false ⟨true, none, "file1"⟩
      ⟨false, some "The caller does not have permission"⟩
      ⟨true, none, ["s1"]⟩ ⟨true, none, "s2"⟩ ⟨true, none⟩ =
      Except.ok ("s1", "file1") :=
  ⟨rfl, rfl⟩

/-- C2 amended: the upload, presentation-fetch, slide-creation and
image-insertion steps each raise on a non-success status with the message
`error.error?.message` or a step-specific generic fallback, but the
permission-setting step's response is never checked: it raises nothing and
the outcome is independent of it. -/
theorem c2_error_handling_amended (b : Bool) (upload : DriveUploadResp)
    (perm perm2 : PermissionResp) (getPres : GetPresResp)
    (createR : BatchResp) (insertR : InsertResp) :
    (upload.ok = false →
      addChartToPresentation b upload perm getPres createR insertR =
        Except.error (googleError "Failed to upload image to Drive" upload.errMessage)) ∧
    (b = false → upload.ok = true → getPres.ok = false →
      addChartToPresentation b upload perm getPres createR insertR =
        Except.error (googleError "Failed to get presentation" getPres.errMessage)) ∧
    (b = true → upload.ok = true → createR.ok = false →
      addChartToPresentation b upload perm getPres createR insertR =
        Except.error (googleError "Failed to create slide" createR.errMessage)) ∧
    (b = false → upload.ok = true → getPres.ok = true → getPres.slides = [] →
      createR.ok = false →
      addChartToPresentation b upload perm getPres createR insertR =
        Except.error (googleError "Failed to create slide" createR.errMessage)) ∧
    (b = true → upload.ok = true → createR.ok = true → insertR.ok = false →
      addChartToPresentation b upload perm getPres createR insertR =
        Except.error (googleError "Failed to add image to slide" insertR.errMessage)) ∧
    addChartToPresentation b upload perm getPres createR insertR =
      addChartToPresentation b upload perm2 getPres createR insertR := by
  refine ⟨?_, ?_, ?_, ?_, ?_, rfl⟩
  · intro h1
    simp only [addChartToPresentation, uploadImageToDrive, h1]
    rfl
  · intro hb h1 h2
    simp only [addChartToPresentation, uploadImageToDrive, getFirstSlideId, hb, h1, h2]
    rfl
  · intro hb h1 h2
    simp only [addChartToPresentation, uploadImageToDrive, createNewSlide, hb, h1, h2]
    rfl
  · intro hb h1 h2 h3 h4
    simp only [addChartToPresentation, uploadImageToDrive, getFirstSlideId, createNewSlide,
      hb, h1, h2, h3, h4]
    rfl
  · intro hb h1 h2 h3
    simp only [addChartToPresentation, uploadImageToDrive, createNewSlide, addImageToSlide,
      hb, h1, h2, h3]
    rfl

theorem c2_error_handling_amended_witness :
    ((⟨false, some "quota exceeded", "f"⟩ : DriveUploadResp).ok = false ∧
     addChartToPresentation false ⟨false, some "quota exceeded", "f"⟩ ⟨true, none⟩
       ⟨true, none, []⟩ ⟨true, none, "s"⟩ ⟨true, none⟩ =
       Except.error (googleError "Failed to upload image to Drive" (some "quota exceeded"))) ∧
    ((⟨false, none⟩ : InsertResp).ok = false ∧
     addChartToPresentation true ⟨true, none, "f"⟩ ⟨true, none⟩
       ⟨true, none, []⟩ ⟨true, none, "s"⟩ ⟨false, none⟩ =
       Except.error (googleError "Failed to add image to slide" none)) :=
  ⟨⟨rfl,
     (c2_error_handling_amended false ⟨false, some "quota exceeded", "f"⟩ ⟨true, none⟩
       ⟨true, none⟩ ⟨true, none, []⟩ ⟨true, none, "s"⟩ ⟨false, none⟩).1 rfl⟩,
   ⟨rfl,
     (c2_error_handling_amended true ⟨true, none, "f"⟩ ⟨true, none⟩ ⟨true, none⟩
       ⟨true, none, []⟩ ⟨true, none, "s"⟩ ⟨false, none⟩).2.2.2.2.1
       rfl rfl rfl rfl⟩⟩

/-! ## `src/components/AISidebar.jsx`: `handleSend` -/

structure ChatMsg where
  type : String
  content : String
  chartImage : Option String
  chartId : Option Int
deriving DecidableEq, Repr

/-- The backend chat response shape; `chart_metadata` is returned by the
backend but never read by this component's `handleSend`. -/
structure ChatResult where
  response : String
  chart_url : Option String
  chart_metadata : Option ChartMetadata
deriving DecidableEq, Repr

structure SidebarState where
  messages : List ChatMsg
  inputValue : String
  error : Option String
deriving DecidableEq, Repr

/-- `VITE_API_URL`'s documented local-development default. -/
def API_URL : String := "http://localhost:8000"

/-- `getChartImageUrl(chartPath)` from `api.js`. -/
def getChartImageUrl (chartPath : Option String) : Option String :=
  match chartPath with
  | none => none
  | some p => if p = "" then none else some (API_URL ++ p)

/-- JS `String.prototype.trim()`: strip whitespace from both ends. -/
def jsTrim (s : String) : String :=
  ⟨((s.data.dropWhile (fun c => c.isWhitespace)).reverse.dropWhile
      (fun c => c.isWhitespace)).reverse⟩

/-- `handleSend(prompt)`: append the user message, clear the input, then on a
successful backend response append the assistant message and, when the
response carries a chart URL, emit a generated chart — with the fixed type
"image" and without the response's `chart_metadata`; on a thrown error append
the apology message and record the error.  Returns the new sidebar state and
the chart passed to `onChartGenerated`, if any. -/
def handleSend (st : SidebarState) (prompt : String)
    (backend : Except String ChatResult) (now : Int) :
    SidebarState × Option GenChart :=
  if jsTrim prompt = "" then (st, none)
  else
    let st1 : SidebarState :=
      { st with
          messages := st.messages ++ [⟨"user", prompt, none, none⟩]
          inputValue := "" }
    match backend with
    | .ok result =>
      match getChartImageUrl result.chart_url with
      | some u =>
        ({ st1 with messages := st1.messages ++
            [⟨"assistant", result.response, some u, some now⟩] },
         some ⟨now, "image", u, none⟩)
      | none =>
        ({ st1 with messages := st1.messages ++
            [⟨"assistant", result.response, none, none⟩] },
         none)
    | .error e =>
      ({ st1 with
          messages := st1.messages ++
            [⟨"assistant",
              "Sorry, I encountered an error: " ++ e ++
                ". Please make sure the backend server is running.",
              none, none⟩]
          error := some e },
       none)

def c3Resp : ChatResult :=
  ⟨"Here is your bar chart", some "/static/charts/chart_123.png",
   some ⟨some "bar", some "category", some "value", some "Test Chart"⟩⟩

/-- C3 at the failing input: the backend response carries chart metadata with
`chart_type = "bar"`, yet the chart handed to `onChartGenerated` has the fixed
type "image" and no metadata (the input field is cleared as claimed).  This
contradicts the repository's own `AISidebar.metadata.test.jsx`, which expects
the metadata type to be used. -/
theorem c3_metadata_type_bug :
    (c3Resp.chart_metadata.map (fun m => m.chart_type)) = some (some "bar") ∧
    (handleSend ⟨[], "Create a bar chart", none⟩ "Create a bar chart"
        (Except.ok c3Resp) 99).2 =
      some ⟨99, "image", API_URL ++ "/static/charts/chart_123.png", none⟩ ∧
    (handleSend ⟨[], "Create a bar chart", none⟩ "Create a bar chart"
        (Except.ok c3Resp) 99).1.inputValue = "" := by decide

end GraphicsCopilot
